import Mathlib

set_option maxHeartbeats 1000000

/-!
Shallow embedding of bounoable/mongomove (mongomove.go) and proofs about it.

The Go program copies every database of a source MongoDB cluster to a target
cluster: it lists database names, filters them by configurable predicates,
asks for confirmation, and then a pool of workers copies each database
(collections in batches of documents, then index recreation).

Pure pieces of the code (batching loop, database-name filtering, index
translation, option resolution, constructor) are translated directly into
Lean functions.  The effectful pipeline is embedded as functions from an
abstract cluster environment to the list of driver calls performed plus the
produced error, sequentially determinizing the goroutine pool (workers pull
names in order; the errgroup join returns the first error in list order).
-/

namespace Mongomove

/-! ## Document batching (`Importer.importCollection`, mongomove.go:309-366)

The cursor loop appends each decoded document to `buf`; once
`len(buf) >= cfg.batchSize` it calls `insertBatch` (which is a no-op on an
empty buffer and otherwise issues one `InsertMany` with the whole buffer)
and resets the buffer; after the stream ends the remaining partial buffer
is flushed by a final `insertBatch`. -/

/-- The function `batchLoop B buf ds` returns the chunks flushed by the cursor
loop of `importCollection` when the buffer currently holds `buf` and the
remaining document stream is `ds`.  Each returned chunk is the argument of one
`InsertMany` call, in call order; an empty final buffer is not flushed
(`insertBatch` returns early when `len(buf) == 0`). -/
def batchLoop (B : Nat) : List α → List α → List (List α)
  | buf, [] => if buf.isEmpty then [] else [buf]
  | buf, d :: ds =>
    if B ≤ (buf ++ [d]).length then (buf ++ [d]) :: batchLoop B [] ds
    else batchLoop B (buf ++ [d]) ds

/-- Chunks flushed by `importCollection` for a whole document stream `docs`
with batch size `B` (the loop starts with an empty buffer). -/
def collectionBatches (B : Nat) (docs : List α) : List (List α) :=
  batchLoop B [] docs

/-! ## Import configuration (mongomove.go:43-52, 162-175) -/

/-- Nanoseconds in `5 * time.Second` (mongomove.go:20-22). -/
def defaultPingTimeout : Int := 5000000000

/-- Go struct `importConfig` (mongomove.go:43-52).  Go `int` is modelled as
`Int`; the option setters may store any value, clamping happens inside
`Import`. -/
structure importConfig where
  dbFilter : List (String → Bool)
  ensureIndexes : Bool
  drop : Bool
  skipConfirm : Bool
  verbose : Bool
  pingTimeout : Int
  parallel : Int
  batchSize : Int

/-- Configuration value built at the top of `Importer.Import`
(mongomove.go:163-166): only `pingTimeout` and `ensureIndexes` are set
explicitly, every other field keeps Go's zero value. -/
def initialConfig : importConfig :=
  { dbFilter := [], ensureIndexes := true, drop := false, skipConfirm := false,
    verbose := false, pingTimeout := defaultPingTimeout, parallel := 0, batchSize := 0 }

/-- Functional option type `ImportOption` (mongomove.go:41). -/
def ImportOption : Type := importConfig → importConfig

/-- Application of the option list (mongomove.go:167-169). -/
def applyOptions (opts : List ImportOption) : importConfig :=
  opts.foldl (fun cfg opt => opt cfg) initialConfig

/-- Clamping of `parallel` and `batchSize` to a minimum of 1
(mongomove.go:170-175). -/
def resolveConfig (cfg : importConfig) : importConfig :=
  let cfg1 := if cfg.parallel < 1 then { cfg with parallel := 1 } else cfg
  if cfg1.batchSize < 1 then { cfg1 with batchSize := 1 } else cfg1

/-- The configuration the rest of the run executes with. -/
def runConfig (opts : List ImportOption) : importConfig :=
  resolveConfig (applyOptions opts)

/-! ## Predicate constructors (mongomove.go:75-90) -/

/-- Go `strings.HasPrefix(s, pre)` over strings modelled as character
lists, translated from its stdlib implementation
`len(s) >= len(pre) && s[0:len(pre)] == pre`. -/
def goStartsWith (s pre : List Char) : Bool :=
  decide (pre.length ≤ s.length) && decide (s.take pre.length = pre)

/-- The predicate constructor `HasPrefix` (mongomove.go:75-79): given the
configured name start `pre` it returns the closure
`fun s => strings.HasPrefix(s, pre)`. -/
def startsWithFilter (pre : List Char) : List Char → Bool :=
  fun s => goStartsWith s pre

/-- The database-name predicate built by `Exclude` (mongomove.go:81-90):
the returned filter loops over the pattern matchers and rejects the name as
soon as one matches; a name is kept only when no pattern matches.  Pattern
matching itself (`regexp.MatchString`) is an external collaborator, so
matchers are opaque boolean predicates. -/
def excludeKeep (matchers : List (String → Bool)) (db : String) : Bool :=
  match matchers with
  | [] => true
  | m :: ms => if m db then false else excludeKeep ms db

/-- Option `FilterDatabases` (mongomove.go:57-61): appends filters to
`dbFilter`. -/
def FilterDatabasesOpt (fs : List (String → Bool)) : ImportOption :=
  fun cfg => { cfg with dbFilter := cfg.dbFilter ++ fs }

/-- Option `Exclude` (mongomove.go:81-90): appends the exclusion
predicate. -/
def ExcludeOpt (matchers : List (String → Bool)) : ImportOption :=
  FilterDatabasesOpt [excludeKeep matchers]

/-! ## Database-name filtering (`importConfig.filterDatabases`,
mongomove.go:436-452) -/

/-- Inner loop of `filterDatabases` (mongomove.go:443-447): a name passes
when no filter rejects it (the Go loop jumps to the next name at the first
filter returning false). -/
def passesFilters (name : String) : List (String → Bool) → Bool
  | [] => true
  | f :: fs => if f name then passesFilters name fs else false

/-- Outer loop of `filterDatabases` (mongomove.go:441-450): collects the
passing names in input order. -/
def filterLoop (filters : List (String → Bool)) : List String → List String
  | [] => []
  | name :: rest =>
    if passesFilters name filters then name :: filterLoop filters rest
    else filterLoop filters rest

/-- Go `importConfig.filterDatabases` (mongomove.go:436-452): with no
configured filters the input is returned unchanged, otherwise the filter
loop runs. -/
def filterDatabases (cfg : importConfig) (names : List String) : List String :=
  if cfg.dbFilter.isEmpty then names else filterLoop cfg.dbFilter names

/-! ## Index translation (`Importer.ensureColIndexes`, mongomove.go:378-434) -/

/-- A source index descriptor as the driver's `Indexes().List` returns it:
the ordered `key` sub-document mapping each field name to its
sort-direction/type token (carried opaquely as a string), plus the index
name and uniqueness flag. -/
structure SrcIndexDescriptor where
  key : List (String × String)
  name : String
  unique : Bool
deriving DecidableEq

/-- Target index model built by `ensureColIndexes` (mongomove.go:399-423):
the surviving keys plus the copied name and uniqueness flag. -/
structure IndexModel where
  keys : List (String × String)
  name : String
  unique : Bool
deriving DecidableEq

/-- Reserved-field test `strings.HasPrefix(k, "_")` (mongomove.go:405). -/
def reservedKeyField (k : String) : Bool :=
  goStartsWith k.data ['_']

/-- Translation of one descriptor (mongomove.go:400-423).  The Go code
decodes the `key` sub-document into `bson.M`, a Go hash map, and builds
`keys` by `range`-iterating that map: `keyIter` is the order in which that
iteration happens to visit the entries — Go leaves it unspecified (and
actively randomizes it), so any permutation of the stored key document can
occur.  Fields whose name starts with the reserved `_` are skipped; when
nothing is left the descriptor is dropped (`continue`), otherwise `name`
and `unique` are copied over unchanged. -/
def translateIndex (m : SrcIndexDescriptor) (keyIter : List (String × String)) :
    Option IndexModel :=
  let keys := keyIter.filter (fun kv => !reservedKeyField kv.1)
  if keys.isEmpty then none
  else some { keys := keys, name := m.name, unique := m.unique }

/-- Translation of all listed descriptors (the `for i := range models`
loop), each paired with the iteration order of its decoded key map. -/
def translateIndexes (models : List (SrcIndexDescriptor × List (String × String))) :
    List IndexModel :=
  models.filterMap (fun mi => translateIndex mi.1 mi.2)

/-! ## Trace model of the effectful pipeline

Network effects are embedded as functions from an abstract cluster
environment to the list of driver calls performed plus the produced error.
The goroutine pool is sequentially determinized: workers pull database
names in list order, the `errgroup` join over a database's collection
copies returns the error of the first failing collection in list order,
and the run returns the first error sent on the `errors` channel. -/

/-- A driver call observable at the collaborator interface. -/
inductive Action where
  | pingSource
  | pingTarget
  | listDatabaseNames
  | dropDatabase (db : String)
  | listCollectionNames (db : String)
  | findDocuments (db col : String)
  | insertMany (db col : String) (docs : List Nat)
  | listIndexes (db col : String)
  | createIndexes (db col : String) (models : List IndexModel)
  | askConfirmation
deriving DecidableEq

/-- Abstract behaviour of the source and target clusters and of the
confirmation prompt: what each driver call would return.  Documents are
opaque (`Nat`). -/
structure ClusterEnv where
  pingSourceErr : Option String
  pingTargetErr : Option String
  databaseNames : List String
  listDatabaseNamesErr : Option String
  confirmAnswer : Bool
  confirmErr : Option String
  dropErr : String → Option String
  listCollectionNamesErr : String → Option String
  collectionNames : String → List String
  documents : String → String → List Nat
  copyErr : String → String → Option String
  indexDocs : String → String → List (SrcIndexDescriptor × List (String × String))
  listIndexesErr : String → String → Option String
  createIndexesErr : String → String → Option String

/-- Run outcome of `Importer.Import`: normal return value, or the process
exit forced by `os.Exit(1)` on a declined confirmation. -/
inductive RunOutcome where
  | ok
  | failed (e : String)
  | exited (code : Nat)
deriving DecidableEq

/-- Error wrapping `fmt.Errorf("import %q collection: %w", ...)`
(mongomove.go:288). -/
def wrapColErr (col e : String) : String :=
  "import \"" ++ col ++ "\" collection: " ++ e

/-- Error wrapping `fmt.Errorf("import %q database: %w", ...)`
(mongomove.go:219). -/
def wrapDbErr (db e : String) : String :=
  "import \"" ++ db ++ "\" database: " ++ e

/-- Error wrapping `fmt.Errorf("drop %q database: %w", ...)`
(mongomove.go:212). -/
def wrapDropErr (db e : String) : String :=
  "drop \"" ++ db ++ "\" database: " ++ e

/-- Error wrapping `fmt.Errorf("ensure indexes for %q collection: %w", ...)`
(mongomove.go:372). -/
def wrapIdxColErr (col e : String) : String :=
  "ensure indexes for \"" ++ col ++ "\" collection: " ++ e

/-- Collection copy (`Importer.importCollection`, mongomove.go:309-366):
opens the cursor and issues one `InsertMany` call per flushed chunk.  Any
cursor/decode/insert failure of the collection is summarized by
`env.copyErr`; where exactly the copy would stop does not matter for the
claims settled on this model, so the full action list is recorded. -/
def importCollectionM (cfg : importConfig) (env : ClusterEnv) (db col : String) :
    List Action × Option String :=
  (Action.findDocuments db col ::
      (collectionBatches cfg.batchSize.toNat (env.documents db col)).map
        (Action.insertMany db col),
   env.copyErr db col)

/-- Index recreation for one collection (`ensureColIndexes`,
mongomove.go:378-434): list the source indexes, translate them, and issue
one `CreateMany` only when the survivor set is nonempty. -/
def ensureColIndexesM (env : ClusterEnv) (db col : String) :
    List Action × Option String :=
  match env.listIndexesErr db col with
  | some e => ([Action.listIndexes db col], some ("list indexes: " ++ e))
  | none =>
    let models := translateIndexes (env.indexDocs db col)
    if models.isEmpty then ([Action.listIndexes db col], none)
    else ([Action.listIndexes db col, Action.createIndexes db col models],
          (env.createIndexesErr db col).map (fun e => "create indexes: " ++ e))

/-- Index phase over a database's collections (`ensureIndexes`,
mongomove.go:368-376): sequential, stops at the first failing collection. -/
def ensureIndexesM (env : ClusterEnv) (db : String) :
    List String → List Action × Option String
  | [] => ([], none)
  | col :: rest =>
    let r := ensureColIndexesM env db col
    match r.2 with
    | some e => (r.1, some (wrapIdxColErr col e))
    | none =>
      let r2 := ensureIndexesM env db rest
      (r.1 ++ r2.1, r2.2)

/-- First collection whose copy fails, in collection-list order: the
sequential determinization of the `errgroup` join of `importDatabase`
(`group.Wait()` returns the error of the first task to fail). -/
def firstCopyErr (env : ClusterEnv) (db : String) :
    List String → Option (String × String)
  | [] => none
  | col :: rest =>
    match env.copyErr db col with
    | some e => some (col, e)
    | none => firstCopyErr env db rest

/-- Database copy (`Importer.importDatabase`, mongomove.go:268-307): list
the collections, copy all of them (concurrently in Go; the full set of
copy actions is recorded), join, and only when the join produced no error
run the index phase (or skip it when `ensureIndexes` is off). -/
def importDatabaseM (cfg : importConfig) (env : ClusterEnv) (db : String) :
    List Action × Option String :=
  match env.listCollectionNamesErr db with
  | some e => ([Action.listCollectionNames db],
               some ("list collection names: " ++ e))
  | none =>
    let cols := env.collectionNames db
    let copyActions :=
      (cols.map (fun col => (importCollectionM cfg env db col).1)).flatten
    match firstCopyErr env db cols with
    | some ce => (Action.listCollectionNames db :: copyActions,
                  some (wrapColErr ce.1 ce.2))
    | none =>
      if cfg.ensureIndexes then
        let r := ensureIndexesM env db cols
        (Action.listCollectionNames db :: copyActions ++ r.1,
         r.2.map (fun e => "ensure indexes: " ++ e))
      else (Action.listCollectionNames db :: copyActions, none)

/-- Pre-copy drop (`importConfig.dropDB`, mongomove.go:454-462): a no-op
unless drop-before-import is configured. -/
def dropDBM (cfg : importConfig) (env : ClusterEnv) (db : String) :
    List Action × Option String :=
  if cfg.drop then ([Action.dropDatabase db], env.dropErr db) else ([], none)

/-- One iteration of the worker loop (mongomove.go:206-221) for database
`db`: run the drop and, when it fails, send the wrapped drop error on the
`errors` channel; then — with no `continue` in between — run
`importDatabase` and likewise report its error.  Returns the actions in
order and the errors sent, in send order. -/
def workerBody (cfg : importConfig) (env : ClusterEnv) (db : String) :
    List Action × List String :=
  let d := dropDBM cfg env db
  let i := importDatabaseM cfg env db
  (d.1 ++ i.1,
   (match d.2 with | some e => [wrapDropErr db e] | none => []) ++
   (match i.2 with | some e => [wrapDbErr db e] | none => []))

/-- Confirmation step (`importConfig.confirm`, mongomove.go:464-477):
skipped entirely when `skipConfirm` is set, otherwise the prompt is shown
and the user's answer (or the prompt's error) is returned. -/
def confirmM (cfg : importConfig) (env : ClusterEnv) :
    List Action × Except String Bool :=
  if cfg.skipConfirm then ([], Except.ok true)
  else
    ([Action.askConfirmation],
     match env.confirmErr with
     | some e => Except.error ("survey: " ++ e)
     | none => Except.ok env.confirmAnswer)

/-- Top-level run (`Importer.Import`, mongomove.go:162-251), sequentially
determinized: resolve the options, ping source and target, list and filter
the database names, confirm (declining prints and calls `os.Exit(1)`),
then the worker pool processes the filtered names (workers pull names from
the `jobs` channel; here: in list order) and the run returns the first
reported error, if any. -/
def ImportM (opts : List ImportOption) (env : ClusterEnv) :
    List Action × RunOutcome :=
  let cfg := runConfig opts
  match env.pingSourceErr with
  | some e => ([Action.pingSource], RunOutcome.failed ("ping: ping source: " ++ e))
  | none =>
  match env.pingTargetErr with
  | some e => ([Action.pingSource, Action.pingTarget],
               RunOutcome.failed ("ping: ping target: " ++ e))
  | none =>
  match env.listDatabaseNamesErr with
  | some e => ([Action.pingSource, Action.pingTarget, Action.listDatabaseNames],
               RunOutcome.failed ("list database names: " ++ e))
  | none =>
  let names := filterDatabases cfg env.databaseNames
  let c := confirmM cfg env
  let pre := [Action.pingSource, Action.pingTarget, Action.listDatabaseNames] ++ c.1
  match c.2 with
  | Except.error e => (pre, RunOutcome.failed ("confirm: " ++ e))
  | Except.ok false => (pre, RunOutcome.exited 1)
  | Except.ok true =>
    let jobs := names.map (workerBody cfg env)
    (pre ++ (jobs.map Prod.fst).flatten,
     match (jobs.map Prod.snd).flatten.head? with
     | some e => RunOutcome.failed e
     | none => RunOutcome.ok)

/-- Classification used by the claims: driver calls that touch a database's
collections, documents or indexes (anything beyond ping, database-name
listing and the confirmation prompt). -/
def readsOrWrites : Action → Bool
  | Action.dropDatabase _ => true
  | Action.listCollectionNames _ => true
  | Action.findDocuments _ _ => true
  | Action.insertMany _ _ _ => true
  | Action.listIndexes _ _ => true
  | Action.createIndexes _ _ _ => true
  | _ => false

/-- Driver calls of the index-creation phase. -/
def isIndexAction : Action → Bool
  | Action.listIndexes _ _ => true
  | Action.createIndexes _ _ _ => true
  | _ => false

/-! ## Constructor `New` (mongomove.go:145-156) -/

/-- Go struct `Importer` (mongomove.go:30-33), generic over the client
handle type. -/
structure Importer (α : Type) where
  source : α
  target : α
deriving DecidableEq

/-- Go `New` (mongomove.go:145-156): a nil client pointer is `none`, and a
Go `panic` is an `Except.error` carrying the panic message. -/
def New (source target : Option α) : Except String (Importer α) :=
  match source with
  | none => Except.error "<nil> client (source)"
  | some s =>
    match target with
    | none => Except.error "<nil> client (target)"
    | some t => Except.ok { source := s, target := t }

/-! ## Concrete instances used by counterexamples and witnesses -/

/-- Environment in which every driver call succeeds and returns nothing. -/
def baseEnv : ClusterEnv :=
  { pingSourceErr := none, pingTargetErr := none, databaseNames := [],
    listDatabaseNamesErr := none, confirmAnswer := true, confirmErr := none,
    dropErr := fun _ => none, listCollectionNamesErr := fun _ => none,
    collectionNames := fun _ => [], documents := fun _ _ => [],
    copyErr := fun _ _ => none, indexDocs := fun _ _ => [],
    listIndexesErr := fun _ _ => none, createIndexesErr := fun _ _ => none }

/-- Compound index `a_1_b_1` over the ordered keys `a`, `b`. -/
def srcIdxC2 : SrcIndexDescriptor :=
  { key := [("a", "1"), ("b", "1")], name := "a_1_b_1", unique := false }

/-- A legal Go map iteration order of `srcIdxC2`'s decoded key map that
visits `b` before `a`. -/
def keyIterC2 : List (String × String) := [("b", "1"), ("a", "1")]

/-- Database `db1` with collections `c1`, `c2`, where `c2`'s copy fails. -/
def envC4 : ClusterEnv :=
  { baseEnv with
    databaseNames := ["db1"]
    collectionNames := fun _ => ["c1", "c2"]
    documents := fun _ _ => [7]
    copyErr := fun _ c => if c = "c2" then some "write error" else none }

/-- Resolved configuration of a run started with only the `Drop(true)`
option. -/
def cfgC5 : importConfig :=
  runConfig [fun cfg => { cfg with drop := true }]

/-- Cluster on which dropping the target database `db` fails while
everything else succeeds; `db` has one collection holding one document. -/
def envC5 : ClusterEnv :=
  { baseEnv with
    databaseNames := ["db"]
    collectionNames := fun _ => ["c"]
    documents := fun _ _ => [7]
    dropErr := fun _ => some "drop failed" }

/-- Cluster whose user declines the confirmation prompt. -/
def envC6 : ClusterEnv :=
  { baseEnv with
    databaseNames := ["db"]
    collectionNames := fun _ => ["c"]
    documents := fun _ _ => [7]
    confirmAnswer := false }

/-- Collection whose only source index is the default `_id` index: every
key field is reserved, so no descriptor survives translation. -/
def envC7 : ClusterEnv :=
  { baseEnv with
    indexDocs := fun _ _ =>
      [({ key := [("_id", "1")], name := "_id_", unique := false }, [("_id", "1")])] }

/-! ## Lemmas about the batching loop -/

theorem batchLoop_small {B : Nat} (ds : List α) : ∀ buf : List α,
    buf.length + ds.length ≤ B →
    batchLoop B buf ds = if (buf ++ ds).isEmpty then [] else [buf ++ ds] := by
  induction ds with
  | nil => intro buf h; rw [batchLoop, List.append_nil]
  | cons d ds ih =>
    intro buf h
    simp only [List.length_cons] at h
    rw [batchLoop]
    by_cases hle : B ≤ (buf ++ [d]).length
    · have hlen : ds.length = 0 := by simp at hle; omega
      have hds : ds = [] := List.length_eq_zero.mp hlen
      subst hds
      rw [if_pos hle]
      simp [batchLoop]
    · rw [if_neg hle]
      have h' : (buf ++ [d]).length + ds.length ≤ B := by simp; omega
      rw [ih (buf ++ [d]) h']
      simp only [List.append_assoc, List.singleton_append]

theorem batchLoop_big {B : Nat} (ds : List α) : ∀ buf : List α,
    buf.length < B → B ≤ buf.length + ds.length →
    batchLoop B buf ds =
      (buf ++ ds.take (B - buf.length)) :: batchLoop B [] (ds.drop (B - buf.length)) := by
  induction ds with
  | nil => intro buf hb h; simp at h; omega
  | cons d ds ih =>
    intro buf hb h
    simp only [List.length_cons] at h
    rw [batchLoop]
    by_cases hle : B ≤ (buf ++ [d]).length
    · have hB : B = buf.length + 1 := by simp at hle; omega
      have h1 : B - buf.length = 1 := by omega
      rw [if_pos hle, h1]
      simp
    · rw [if_neg hle]
      have hb' : (buf ++ [d]).length < B := by omega
      have h' : B ≤ (buf ++ [d]).length + ds.length := by simp; omega
      rw [ih (buf ++ [d]) hb' h']
      have h2 : B - buf.length = (B - (buf ++ [d]).length) + 1 := by simp; omega
      rw [h2]
      simp [List.take_succ_cons, List.drop_succ_cons, List.append_assoc]

theorem collectionBatches_nil (B : Nat) : collectionBatches B ([] : List α) = [] := by
  simp [collectionBatches, batchLoop]

theorem collectionBatches_step {B : Nat} (hB : 0 < B) (docs : List α) (hne : docs ≠ []) :
    collectionBatches B docs = docs.take B :: collectionBatches B (docs.drop B) := by
  rcases le_or_lt B docs.length with h | h
  · have := batchLoop_big (B := B) docs [] (by simpa using hB) (by simpa using h)
    simpa [collectionBatches] using this
  · have := batchLoop_small (B := B) docs [] (by simp; omega)
    have htake : docs.take B = docs := List.take_of_length_le (le_of_lt h)
    have hdrop : docs.drop B = [] := List.drop_eq_nil_of_le (le_of_lt h)
    rw [collectionBatches, this]
    simp [hne, htake, hdrop, collectionBatches_nil, List.isEmpty_iff]

theorem collectionBatches_flatten {B : Nat} (hB : 0 < B) (docs : List α) :
    (collectionBatches B docs).flatten = docs := by
  generalize hn : docs.length = n
  induction n using Nat.strong_induction_on generalizing docs with
  | _ n ih =>
    rcases eq_or_ne docs [] with rfl | hne
    · simp [collectionBatches_nil]
    · rw [collectionBatches_step hB docs hne]
      have hpos : 0 < docs.length := List.length_pos.mpr hne
      have hlen : (docs.drop B).length < n := by
        rw [← hn]; simp; omega
      rw [List.flatten_cons]
      rw [ih _ hlen (docs.drop B) rfl]
      exact List.take_append_drop B docs

theorem collectionBatches_length {B : Nat} (hB : 0 < B) (docs : List α) :
    (collectionBatches B docs).length = (docs.length + B - 1) / B := by
  generalize hn : docs.length = n
  induction n using Nat.strong_induction_on generalizing docs with
  | _ n ih =>
    rcases eq_or_ne docs [] with rfl | hne
    · simp at hn
      subst hn
      simp [collectionBatches_nil]
      rw [Nat.div_eq_of_lt (by omega)]
    · rw [collectionBatches_step hB docs hne]
      have hpos : 0 < docs.length := List.length_pos.mpr hne
      have hlen : (docs.drop B).length < n := by rw [← hn]; simp; omega
      rw [List.length_cons, ih _ hlen (docs.drop B) rfl]
      rw [List.length_drop, ← hn]
      rcases le_or_lt B docs.length with hcase | hcase
      · have e1 : docs.length + B - 1 = ((docs.length - B) + B - 1) + B := by omega
        rw [e1, Nat.add_div_right _ hB]
      · have e2 : docs.length - B = 0 := by omega
        have e3 : docs.length + B - 1 = (docs.length - 1) + B := by omega
        rw [e2, e3, Nat.add_div_right _ hB]
        simp
        rw [Nat.div_eq_of_lt (by omega), Nat.div_eq_of_lt (by omega)]

theorem collectionBatches_getD_length {B : Nat} (hB : 0 < B) (docs : List α) :
    ∀ i : Nat, ((collectionBatches B docs).getD i []).length
      = min B (docs.length - B * i) := by
  generalize hn : docs.length = n
  induction n using Nat.strong_induction_on generalizing docs with
  | _ n ih =>
    intro i
    rcases eq_or_ne docs [] with rfl | hne
    · simp at hn
      subst hn
      simp [collectionBatches_nil]
    · rw [collectionBatches_step hB docs hne]
      have hpos : 0 < docs.length := List.length_pos.mpr hne
      have hlen : (docs.drop B).length < n := by rw [← hn]; simp; omega
      cases i with
      | zero => simp [← hn, Nat.min_comm]
      | succ j =>
        simp only [List.getD_cons_succ]
        rw [ih _ hlen (docs.drop B) rfl j]
        rw [List.length_drop, ← hn]
        congr 1
        have : B * (j + 1) = B * j + B := by ring
        omega

theorem collectionBatches_not_mem_nil {B : Nat} (hB : 0 < B) (docs : List α) :
    [] ∉ collectionBatches B docs := by
  intro hmem
  obtain ⟨i, hi, hget⟩ := List.mem_iff_getElem.mp hmem
  have hlen : ((collectionBatches B docs).getD i []).length = 0 := by
    rw [List.getD_eq_getElem _ _ hi, hget]
    rfl
  rw [collectionBatches_getD_length hB docs i] at hlen
  rw [collectionBatches_length hB docs] at hi
  have hc : B * ((docs.length + B - 1) / B) ≤ docs.length + B - 1 := by
    rw [mul_comm]; exact Nat.div_mul_le_self _ _
  have hceil : 1 ≤ (docs.length + B - 1) / B := by omega
  have e1 : B * ((docs.length + B - 1) / B)
      = B * ((docs.length + B - 1) / B - 1) + B := by
    have h1 : (docs.length + B - 1) / B - 1 + 1 = (docs.length + B - 1) / B := by omega
    calc B * ((docs.length + B - 1) / B)
        = B * (((docs.length + B - 1) / B - 1) + 1) := by rw [h1]
      _ = B * ((docs.length + B - 1) / B - 1) + B := by ring
  have e2 : B * i ≤ B * ((docs.length + B - 1) / B - 1) :=
    Nat.mul_le_mul_left B (by omega)
  omega

/-- C1: for every document stream `docs` of length K and every batch size
`B ≥ 1`, the cursor loop of `Importer.importCollection` issues exactly
⌈K/B⌉ = (K+B-1)/B insert-many calls against the mirrored target collection;
the first ⌊K/B⌋ calls each carry exactly `B` documents, the last call carries
`K mod B` documents (or `B` when `K mod B = 0`), a chunk of size zero never
triggers a write, and the concatenation of all flushed chunks equals the
input document sequence in order. -/
theorem importCollection_batching (B : Nat) (hB : 1 ≤ B) (docs : List α) :
    (collectionBatches B docs).length = (docs.length + B - 1) / B ∧
    (∀ i : Nat, i < docs.length / B →
      ((collectionBatches B docs).getD i []).length = B) ∧
    (docs ≠ [] →
      ((collectionBatches B docs).getD ((docs.length + B - 1) / B - 1) []).length
        = if docs.length % B = 0 then B else docs.length % B) ∧
    [] ∉ collectionBatches B docs ∧
    (collectionBatches B docs).flatten = docs := by
  refine ⟨collectionBatches_length hB docs, ?_, ?_, collectionBatches_not_mem_nil hB docs,
    collectionBatches_flatten hB docs⟩
  · intro i hi
    rw [collectionBatches_getD_length hB docs i]
    have h1 : B * (i + 1) ≤ B * (docs.length / B) := Nat.mul_le_mul_left B (by omega)
    have h2 : B * (docs.length / B) ≤ docs.length := by
      rw [mul_comm]; exact Nat.div_mul_le_self _ _
    have e : B * (i + 1) = B * i + B := by ring
    have e4 : B ≤ docs.length - B * i := by omega
    exact min_eq_left e4
  · intro hne
    have hpos : 0 < docs.length := List.length_pos.mpr hne
    rw [collectionBatches_getD_length hB docs _]
    have hdm := Nat.div_add_mod docs.length B
    have hr : docs.length % B < B := Nat.mod_lt _ hB
    by_cases hr0 : docs.length % B = 0
    · rw [if_pos hr0]
      have hq : 1 ≤ docs.length / B := by
        rw [Nat.le_div_iff_mul_le hB]
        rcases le_or_lt B docs.length with h | h
        · omega
        · rw [Nat.mod_eq_of_lt h] at hr0; omega
      have eceil : (docs.length + B - 1) / B = docs.length / B := by
        have e1 : docs.length + B - 1 = (B - 1) + B * (docs.length / B) := by omega
        rw [e1, Nat.add_mul_div_left _ _ hB, Nat.div_eq_of_lt (by omega)]
        omega
      rw [eceil]
      have e2 : B * (docs.length / B) = B * (docs.length / B - 1) + B := by
        have h1 : docs.length / B - 1 + 1 = docs.length / B := by omega
        calc B * (docs.length / B) = B * ((docs.length / B - 1) + 1) := by rw [h1]
          _ = B * (docs.length / B - 1) + B := by ring
      have e4 : docs.length - B * (docs.length / B - 1) = B := by omega
      rw [e4, Nat.min_self]
    · rw [if_neg hr0]
      have eceil : (docs.length + B - 1) / B = docs.length / B + 1 := by
        have e1 : docs.length + B - 1 = (docs.length % B - 1) + B * (docs.length / B + 1) := by
          have e3 : B * (docs.length / B + 1) = B * (docs.length / B) + B := by ring
          omega
        rw [e1, Nat.add_mul_div_left _ _ hB, Nat.div_eq_of_lt (by omega)]
        omega
      rw [eceil]
      simp only [Nat.add_sub_cancel]
      have e4 : docs.length - B * (docs.length / B) = docs.length % B := by omega
      rw [e4]
      exact min_eq_right (le_of_lt hr)

/-- Witness for C1 at `B = 2` and a concrete five-document stream. -/
theorem importCollection_batching_witness :
    1 ≤ 2 ∧
    ((collectionBatches 2 [10, 11, 12, 13, 14]).length = (5 + 2 - 1) / 2 ∧
    (∀ i : Nat, i < 5 / 2 →
      ((collectionBatches 2 [10, 11, 12, 13, 14]).getD i []).length = 2) ∧
    ([10, 11, 12, 13, 14] ≠ ([] : List Nat) →
      ((collectionBatches 2 [10, 11, 12, 13, 14]).getD ((5 + 2 - 1) / 2 - 1) []).length
        = if 5 % 2 = 0 then 2 else 5 % 2) ∧
    [] ∉ collectionBatches 2 [10, 11, 12, 13, 14] ∧
    (collectionBatches 2 [10, 11, 12, 13, 14]).flatten = [10, 11, 12, 13, 14]) := by
  constructor
  · decide
  · have h := importCollection_batching 2 (by decide) [10, 11, 12, 13, 14]
    simpa using h

/-! ## Database-name filtering: C3 -/

theorem passesFilters_eq_all (name : String) (fs : List (String → Bool)) :
    passesFilters name fs = fs.all (fun f => f name) := by
  induction fs with
  | nil => rfl
  | cons f fs ih =>
    rw [passesFilters]
    cases h : f name <;> simp [h, ih]

theorem filterLoop_eq_filter (fs : List (String → Bool)) (l : List String) :
    filterLoop fs l = l.filter (fun n => fs.all (fun f => f n)) := by
  induction l with
  | nil => rfl
  | cons n rest ih =>
    rw [filterLoop, passesFilters_eq_all]
    cases h : fs.all (fun f => f n) <;> simp [h, ih, List.filter_cons]

/-- C3: for every configured predicate list and every database-name list,
`filterDatabases` returns the order-preserving subsequence of the input
containing exactly the names for which every predicate returns true, and
with an empty predicate list it returns the input unchanged. -/
theorem filterDatabases_spec (cfg : importConfig) (L : List String) :
    filterDatabases cfg L = L.filter (fun n => cfg.dbFilter.all (fun f => f n)) ∧
    (filterDatabases cfg L).Sublist L ∧
    (∀ n, n ∈ filterDatabases cfg L ↔ n ∈ L ∧ ∀ f ∈ cfg.dbFilter, f n = true) ∧
    (cfg.dbFilter = [] → filterDatabases cfg L = L) := by
  have h : filterDatabases cfg L
      = L.filter (fun n => cfg.dbFilter.all (fun f => f n)) := by
    rw [filterDatabases]
    by_cases he : cfg.dbFilter.isEmpty
    · rw [if_pos he]
      rw [List.isEmpty_iff] at he
      simp [he]
    · rw [if_neg he, filterLoop_eq_filter]
  refine ⟨h, ?_, ?_, ?_⟩
  · rw [h]; exact List.filter_sublist L
  · intro n
    rw [h, List.mem_filter]
    simp [List.all_eq_true]
  · intro h0
    rw [filterDatabases, h0]
    simp

/-- Witness for C3: with no configured filters the input list is returned
unchanged. -/
theorem filterDatabases_spec_witness :
    filterDatabases initialConfig ["a", "b", "my_x"] = ["a", "b", "my_x"] :=
  (filterDatabases_spec initialConfig ["a", "b", "my_x"]).2.2.2 rfl

/-! ## Predicate constructors: C8 -/

theorem goStartsWith_iff (s pre : List Char) :
    goStartsWith s pre = true ↔ ∃ t, s = pre ++ t := by
  rw [goStartsWith]
  simp only [Bool.and_eq_true, decide_eq_true_eq]
  constructor
  · rintro ⟨h1, h2⟩
    refine ⟨s.drop pre.length, ?_⟩
    conv_lhs => rw [← List.take_append_drop pre.length s]
    rw [h2]
  · rintro ⟨t, rfl⟩
    constructor
    · simp
    · simp

theorem excludeKeep_true_iff (ms : List (String → Bool)) (db : String) :
    excludeKeep ms db = true ↔ ∀ m ∈ ms, m db = false := by
  induction ms with
  | nil => simp [excludeKeep]
  | cons m ms ih =>
    rw [excludeKeep]
    cases h : m db <;> simp [h, ih]

theorem excludeKeep_false_iff (ms : List (String → Bool)) (db : String) :
    excludeKeep ms db = false ↔ ∃ m ∈ ms, m db = true := by
  induction ms with
  | nil => simp [excludeKeep]
  | cons m ms ih =>
    rw [excludeKeep]
    cases h : m db <;> simp [h, ih]

/-- C8: the predicate built by the prefix constructor accepts exactly the
names that start with the configured characters, and the predicate built
by the exclusion constructor keeps a name iff no pattern matcher matches
it — it returns false as soon as any pattern matches. -/
theorem predicate_constructors_spec (pre s : List Char)
    (ms : List (String → Bool)) (db : String) :
    (startsWithFilter pre s = true ↔ ∃ t, s = pre ++ t) ∧
    (excludeKeep ms db = true ↔ ∀ m ∈ ms, m db = false) ∧
    (excludeKeep ms db = false ↔ ∃ m ∈ ms, m db = true) :=
  ⟨goStartsWith_iff s pre, excludeKeep_true_iff ms db, excludeKeep_false_iff ms db⟩

/-- Witness for C8 at a concrete name and an empty pattern set. -/
theorem predicate_constructors_spec_witness :
    startsWithFilter ['m', 'y'] ['m', 'y', 'x'] = true ∧
    excludeKeep [] "a" = true := by
  constructor
  · exact (predicate_constructors_spec ['m', 'y'] ['m', 'y', 'x'] [] "a").1.mpr
      ⟨['x'], rfl⟩
  · exact (predicate_constructors_spec ['m', 'y'] ['m', 'y', 'x'] [] "a").2.1.mpr
      (by simp)

/-! ## Option resolution: C9 -/

/-- C9: the configuration the run executes with always has parallelism and
batch size at least 1; any configured value below 1 (including the zero
value left when the option is omitted) is silently clamped to 1 rather
than rejected, and every other configured field is kept unchanged. -/
theorem runConfig_clamped (opts : List ImportOption) :
    1 ≤ (runConfig opts).parallel ∧ 1 ≤ (runConfig opts).batchSize ∧
    (runConfig opts).parallel = max 1 (applyOptions opts).parallel ∧
    (runConfig opts).batchSize = max 1 (applyOptions opts).batchSize ∧
    (runConfig opts).dbFilter = (applyOptions opts).dbFilter ∧
    (runConfig opts).ensureIndexes = (applyOptions opts).ensureIndexes ∧
    (runConfig opts).drop = (applyOptions opts).drop ∧
    (runConfig opts).skipConfirm = (applyOptions opts).skipConfirm ∧
    (runConfig opts).verbose = (applyOptions opts).verbose ∧
    (runConfig opts).pingTimeout = (applyOptions opts).pingTimeout := by
  rw [runConfig]
  generalize applyOptions opts = cfg
  by_cases h1 : cfg.parallel < 1 <;> by_cases h2 : cfg.batchSize < 1 <;>
    simp [resolveConfig, h1, h2] <;> omega

/-! ## Constructor: C10 -/

/-- C10: `New` panics exactly when the source client or the target client
is nil, and for every pair of non-nil clients it returns an `Importer`
holding exactly those two clients. -/
theorem New_spec {α : Type} (s t : Option α) :
    ((∃ e, New s t = Except.error e) ↔ s = none ∨ t = none) ∧
    (∀ a b, s = some a → t = some b →
      New s t = Except.ok { source := a, target := b }) := by
  cases s <;> cases t <;> simp [New]

/-- Witness for C10: non-nil clients are stored as given, a nil source
panics. -/
theorem New_spec_witness :
    New (some 1) (some 2) = Except.ok ({ source := 1, target := 2 } : Importer Nat) ∧
    (∃ e, New (none : Option Nat) (some 2) = Except.error e) := by
  constructor
  · exact (New_spec (some 1) (some 2)).2 1 2 rfl rfl
  · exact (New_spec none (some 2)).1.mpr (Or.inl rfl)

/-! ## Index translation: C2 and C7 -/

/-- C2 (code-bug evaluation): `ensureColIndexes` builds the target key
document by `range`-iterating the decoded Go map, so a legal iteration
order reverses the compound-index key order.  On the source descriptor
`srcIdxC2` with ordered keys `a`, `b`, the iteration order `keyIterC2` — a
permutation of the stored key document, as Go map iteration may produce —
yields a surviving descriptor whose keys are `b`, `a`: the name and the
uniqueness flag are preserved, but the key order of the source descriptor
is not. -/
theorem translateIndex_scrambles_key_order :
    keyIterC2.Perm srcIdxC2.key ∧
    translateIndex srcIdxC2 keyIterC2 =
      some { keys := keyIterC2, name := "a_1_b_1", unique := false } ∧
    keyIterC2 ≠ srcIdxC2.key := by
  refine ⟨?_, ?_, ?_⟩ <;> decide

/-- C7: when no index descriptor of a collection survives translation, no
create-indexes request is issued against the target and the
per-collection index step completes without error. -/
theorem ensureColIndexes_empty_noop (env : ClusterEnv) (db col : String)
    (hl : env.listIndexesErr db col = none)
    (h : translateIndexes (env.indexDocs db col) = []) :
    (ensureColIndexesM env db col).2 = none ∧
    ∀ d c ms, Action.createIndexes d c ms ∉ (ensureColIndexesM env db col).1 := by
  simp [ensureColIndexesM, hl, h]

/-- Witness for C7: the only source index is the default `_id` index,
whose stripped key set is empty. -/
theorem ensureColIndexes_empty_noop_witness :
    (ensureColIndexesM envC7 "db" "c").2 = none ∧
    ∀ d c ms, Action.createIndexes d c ms ∉ (ensureColIndexesM envC7 "db" "c").1 :=
  ensureColIndexes_empty_noop envC7 "db" "c" rfl (by decide)

/-! ## Database copy: C4 -/

theorem importCollectionM_actions_shape (cfg : importConfig) (env : ClusterEnv)
    (db col : String) (a : Action)
    (h : a ∈ (importCollectionM cfg env db col).1) :
    isIndexAction a = false := by
  simp [importCollectionM] at h
  rcases h with rfl | ⟨ds, hds, rfl⟩ <;> rfl

theorem firstCopyErr_of_exists (env : ClusterEnv) (db : String) (cols : List String)
    (h : ∃ c ∈ cols, env.copyErr db c ≠ none) :
    ∃ c e, firstCopyErr env db cols = some (c, e) ∧ c ∈ cols ∧
      env.copyErr db c = some e := by
  induction cols with
  | nil => simp at h
  | cons c0 rest ih =>
    cases hc : env.copyErr db c0 with
    | some e =>
      exact ⟨c0, e, by simp [firstCopyErr, hc], List.mem_cons_self c0 rest, hc⟩
    | none =>
      obtain ⟨c, hcmem, hcne⟩ := h
      rcases List.mem_cons.mp hcmem with rfl | hmem
      · exact absurd hc hcne
      · obtain ⟨c', e', hfe, hmem', hce'⟩ := ih ⟨c, hmem, hcne⟩
        exact ⟨c', e', by simp [firstCopyErr, hc, hfe],
          List.mem_cons_of_mem _ hmem', hce'⟩

/-- C4: when any collection copy of a database fails, `importDatabase`
returns the wrapped error of the first failing collection, and the
index-creation phase never runs for that database: no index driver call
appears in its trace. -/
theorem importDatabase_error_blocks_indexing (cfg : importConfig) (env : ClusterEnv)
    (db : String) (hlist : env.listCollectionNamesErr db = none)
    (h : ∃ c ∈ env.collectionNames db, env.copyErr db c ≠ none) :
    (∃ c e, c ∈ env.collectionNames db ∧ env.copyErr db c = some e ∧
      (importDatabaseM cfg env db).2 = some (wrapColErr c e)) ∧
    ∀ a ∈ (importDatabaseM cfg env db).1, isIndexAction a = false := by
  obtain ⟨c, e, hfe, hmem, hce⟩ := firstCopyErr_of_exists env db _ h
  have heq : importDatabaseM cfg env db =
      (Action.listCollectionNames db ::
        ((env.collectionNames db).map
          (fun col => (importCollectionM cfg env db col).1)).flatten,
       some (wrapColErr c e)) := by
    simp [importDatabaseM, hlist, hfe]
  constructor
  · exact ⟨c, e, hmem, hce, by rw [heq]⟩
  · intro a ha
    rw [heq] at ha
    simp at ha
    rcases ha with rfl | ⟨col, hcol, hacol⟩
    · rfl
    · exact importCollectionM_actions_shape cfg env db col a hacol

/-- Witness for C4 on the scenario cluster: `db1` holds `c1` and `c2`, and
`c2`'s copy fails with a write error. -/
theorem importDatabase_error_blocks_indexing_witness :
    (∃ c e, c ∈ envC4.collectionNames "db1" ∧ envC4.copyErr "db1" c = some e ∧
      (importDatabaseM initialConfig envC4 "db1").2 = some (wrapColErr c e)) ∧
    ∀ a ∈ (importDatabaseM initialConfig envC4 "db1").1, isIndexAction a = false :=
  importDatabase_error_blocks_indexing initialConfig envC4 "db1" rfl
    ⟨"c2", by decide, by decide⟩

/-! ## Worker loop and drop errors: C5 -/

/-- C5 counterexample: with drop-before-import configured and a failing
target drop, the worker reports the drop error but still lists, reads and
writes the collections of that database — the worker loop of `Import` has
no `continue` after a failed drop, so the claim that no collection of the
database is listed, read, or written is false on the code. -/
theorem workerBody_drop_error_still_copies :
    cfgC5.drop = true ∧
    envC5.dropErr "db" = some "drop failed" ∧
    (workerBody cfgC5 envC5 "db").2.head? = some (wrapDropErr "db" "drop failed") ∧
    Action.listCollectionNames "db" ∈ (workerBody cfgC5 envC5 "db").1 ∧
    Action.findDocuments "db" "c" ∈ (workerBody cfgC5 envC5 "db").1 ∧
    Action.insertMany "db" "c" [7] ∈ (workerBody cfgC5 envC5 "db").1 := by
  refine ⟨?_, ?_, ?_, ?_, ?_, ?_⟩ <;> decide

/-- C5 amended: when drop-before-import is configured and dropping the
target database fails, the wrapped drop error is the first error the
worker reports for that database (and hence becomes the run's returned
error when it is the first error observed), but the database is not
aborted: the worker still performs the whole `importDatabase` step for
it. -/
theorem workerBody_drop_error_reported_first (cfg : importConfig)
    (env : ClusterEnv) (db e : String)
    (hdrop : cfg.drop = true) (he : env.dropErr db = some e) :
    (workerBody cfg env db).2.head? = some (wrapDropErr db e) ∧
    (workerBody cfg env db).1 =
      Action.dropDatabase db :: (importDatabaseM cfg env db).1 := by
  simp [workerBody, dropDBM, hdrop, he]

/-- Witness for the amended C5 at the concrete drop-failing cluster. -/
theorem workerBody_drop_error_reported_first_witness :
    (workerBody cfgC5 envC5 "db").2.head? = some (wrapDropErr "db" "drop failed") ∧
    (workerBody cfgC5 envC5 "db").1 =
      Action.dropDatabase "db" :: (importDatabaseM cfgC5 envC5 "db").1 :=
  workerBody_drop_error_reported_first cfgC5 envC5 "db" "drop failed"
    (by decide) rfl

/-! ## Confirmation: C6 -/

/-- C6: when confirmation is required and the user declines, the run exits
with the non-success status code 1 having performed nothing beyond the
pings, the database-name listing and the prompt itself: no document is
read from any source database or written to any target database. -/
theorem import_confirm_declined (opts : List ImportOption) (env : ClusterEnv)
    (hp1 : env.pingSourceErr = none) (hp2 : env.pingTargetErr = none)
    (hl : env.listDatabaseNamesErr = none)
    (hskip : (runConfig opts).skipConfirm = false)
    (herr : env.confirmErr = none) (hans : env.confirmAnswer = false) :
    (ImportM opts env).2 = RunOutcome.exited 1 ∧
    (ImportM opts env).1 =
      [Action.pingSource, Action.pingTarget, Action.listDatabaseNames,
        Action.askConfirmation] ∧
    ∀ a ∈ (ImportM opts env).1, readsOrWrites a = false := by
  have heq : ImportM opts env =
      ([Action.pingSource, Action.pingTarget, Action.listDatabaseNames,
        Action.askConfirmation], RunOutcome.exited 1) := by
    simp [ImportM, hp1, hp2, hl, confirmM, hskip, herr, hans]
  rw [heq]
  refine ⟨rfl, rfl, ?_⟩
  decide

/-- Witness for C6 on the declining cluster with no options configured. -/
theorem import_confirm_declined_witness :
    (ImportM [] envC6).2 = RunOutcome.exited 1 ∧
    (ImportM [] envC6).1 =
      [Action.pingSource, Action.pingTarget, Action.listDatabaseNames,
        Action.askConfirmation] ∧
    ∀ a ∈ (ImportM [] envC6).1, readsOrWrites a = false :=
  import_confirm_declined [] envC6 rfl rfl rfl (by decide) rfl rfl

end Mongomove
